import Mathlib

/-!
Verification development for the operator catalog of the business-rules
engine (`business_rules/operators.py`).

The Python operators are shallowly embedded:
  * scalar Python values handled by `StringType` / `GenericType` become
    the inductive `GVal` (Decimal is modelled as `ℚ`);
  * `NumericType` works on arbitrary-precision decimals, modelled as `ℚ`;
  * a pandas dataframe becomes `DataFrame`, an association list of named
    columns whose cells are the inductive `Cell`; pandas missing values
    (`None` / `NaN`) are conflated into `Cell.null`;
  * per-row boolean results become `List Bool`, and results that may hold
    the not-applicable placeholder `pandas.NA` become `List (Option Bool)`
    with `none` for `NA`; `~series` on such a nullable-boolean column is
    modelled as the Kleene negation (`none` stays `none`);
  * fallible operations (pandas `KeyError`, the explicit
    `raise Exception(...)` in `is_ordered_set`) return `Except OpError`
    or `Option`;
  * `sorted(...)` / `sort_values` are modelled by the stable
    `List.insertionSort` (Python's `sorted` is stable; only the order of
    ties can differ from `sort_values`, which no statement below depends
    on).
-/

namespace BRules

/-- `decimal.Decimal` values (arbitrary-precision decimals are a subset
of the rationals). -/
abbrev Dec := ℚ

/-- `NumericType.EPSILON = Decimal('0.000001')`. -/
def EPSILON : Dec := 1 / 1000000

/-- `NumericType.equal_to`: `abs(self.value - other_numeric) <= self.EPSILON`. -/
def num_equal_to (a b : Dec) : Bool := decide (|a - b| ≤ EPSILON)

/-- `NumericType.not_equal_to`: `abs(self.value - other_numeric) > self.EPSILON`. -/
def num_not_equal_to (a b : Dec) : Bool := decide (|a - b| > EPSILON)

/-- `NumericType.greater_than`: `(self.value - other_numeric) > self.EPSILON`. -/
def num_greater_than (a b : Dec) : Bool := decide (a - b > EPSILON)

/-- `NumericType.less_than`: `(other_numeric - self.value) > self.EPSILON`. -/
def num_less_than (a b : Dec) : Bool := decide (b - a > EPSILON)

/-- `NumericType.greater_than_or_equal_to`:
`self.greater_than(other) or self.equal_to(other)`. -/
def num_greater_than_or_equal_to (a b : Dec) : Bool :=
  num_greater_than a b || num_equal_to a b

/-- `NumericType.less_than_or_equal_to`:
`self.less_than(other) or self.equal_to(other)`. -/
def num_less_than_or_equal_to (a b : Dec) : Bool :=
  num_less_than a b || num_equal_to a b

/-- Python scalar values as seen by the scalar types: strings, decimals
(ints and floats are cast to `Decimal` by the coercion layer), booleans
and `None`. -/
inductive GScalar where
  | s (s : String)
  | q (x : Dec)
  | b (b : Bool)
  | none_
deriving DecidableEq

/-- A Python value handled by `StringType` / `GenericType`: a scalar or a
list (one level of nesting suffices for every operator modelled here). -/
inductive GVal where
  | sc (v : GScalar)
  | list (l : List GScalar)
deriving DecidableEq

/-- Python truthiness for `GVal` (`bool(v)`): `None`, `False`, `0`, the
empty string and empty collections are falsy. -/
def gval_falsy : GVal → Bool
  | .sc .none_ => true
  | .sc (.b x) => !x
  | .sc (.q x) => decide (x = 0)
  | .sc (.s s) => decide (s = "")
  | .list l => l.isEmpty

/-- `StringType._assert_valid_value_and_cast`:
`value = value or ""` followed by an `isinstance(value, string_types)`
assertion.  A falsy input is first replaced by `""`; a truthy non-string
then fails the assertion. -/
def stringtype_cast (v : GVal) : Except String String :=
  let v2 := if gval_falsy v then GVal.sc (.s "") else v
  match v2 with
  | .sc (.s s) => .ok s
  | _ => .error "is not a valid string type."

/-- A cell of a dataframe column: a string, an integer, a boolean, or a
missing value (`None` / `NaN` conflated into `null`). -/
inductive Cell where
  | str (s : String)
  | int (n : Int)
  | boolC (b : Bool)
  | null
deriving DecidableEq

/-- A pandas dataframe: named columns in order (an association list;
`df[name]` finds the first column with that name). -/
structure DataFrame where
  cols : List (String × List Cell)
deriving DecidableEq

/-- `df[name]` / `df.get(name)`: the column, when present. -/
def DataFrame.getCol? (df : DataFrame) (name : String) : Option (List Cell) :=
  (df.cols.find? (fun p => decide (p.1 = name))).map (fun p => p.2)

/-- The column names of the table. -/
def DataFrame.colNames (df : DataFrame) : List String :=
  df.cols.map (fun p => p.1)

/-- The row count of the table (pandas tables have a homogeneous row
count across columns). -/
def DataFrame.nRows (df : DataFrame) : Nat :=
  match df.cols with
  | [] => 0
  | c :: _ => c.2.length

/-- The dataframe bundle held by a `DataframeType` instance: the `value`
table and the `column_prefix_map` (the remaining bundle fields —
`relationship_data`, `value_level_metadata`, `column_codelist_map`,
`codelist_term_maps` — are not used by any operator modelled here). -/
structure Bundle where
  value : DataFrame
  column_prefix_map : List (String × String)
deriving DecidableEq

/-- `DataframeType.replace_prefix`: the first map entry whose key starts
the name (`value.startswith(prefix)`) has that leading occurrence
replaced (`value.replace(prefix, replacement, 1)`; under the
`startswith` guard the first occurrence is the leading one).  Stated on
the character lists underlying the strings, which is what Python's
code-point semantics prescribes. -/
def replacePrefix (pm : List (String × String)) (v : String) : String :=
  match pm.find? (fun p => p.1.data.isPrefixOf v.data) with
  | some p => ⟨p.2.data ++ v.data.drop p.1.data.length⟩
  | none => v

/-- A comparator argument: a string (column name or literal string), a
non-string scalar literal, or a list. -/
inductive CmpV where
  | s (s : String)
  | c (c : Cell)
  | l (cs : List Cell)
deriving DecidableEq

/-- `replace_prefix` applied to a comparator: only strings are rewritten
(`replace_prefix` returns any non-string argument unchanged). -/
def replacePrefixCmp (pm : List (String × String)) : CmpV → CmpV
  | .s s => .s (replacePrefix pm s)
  | v => v

/-- What `self.value.get(comparator, comparator)` can produce: the
comparator itself, one column, or a sub-table (when the comparator is a
list of column names). -/
inductive CompData where
  | lit (v : CmpV)
  | col (cells : List Cell)
  | subdf (d : DataFrame)
deriving DecidableEq

/-- `df[[c₁, …, cₙ]]`: the sub-table of the named columns, provided every
list element is a string naming an existing column (otherwise pandas
raises `KeyError`, which `DataFrame.get` turns into the default). -/
def DataFrame.selectCols? (df : DataFrame) (cs : List Cell) : Option DataFrame :=
  (cs.mapM (fun c =>
    (match c with
    | .str n => (df.getCol? n).map (fun col => (n, col))
    | _ => none : Option (String × List Cell)))).map DataFrame.mk

/-- `DataframeType.get_comparator_data(comparator, value_is_literal)`:
the literal itself when `value_is_literal`, else
`self.value.get(comparator, comparator)` — the column (or sub-table, for
a list of column names) when the lookup succeeds, else the comparator
itself as fallback. -/
def get_comparator_data (df : DataFrame) (comparator : CmpV)
    (value_is_literal : Bool) : CompData :=
  if value_is_literal then .lit comparator
  else
    match comparator with
    | .s name =>
      match df.getCol? name with
      | some col => .col col
      | none => .lit comparator
    | .l cs =>
      match df.selectCols? cs with
      | some sub => .subdf sub
      | none => .lit comparator
    | .c _ => .lit comparator

/-- The comparison data feeding a binary dataframe operator, per the
shared pattern of `equal_to` and friends: `replace_prefix` is applied to
the comparator only when it is not declared literal, then
`get_comparator_data` resolves it. -/
def df_comparison_data (b : Bundle) (comparator : CmpV)
    (value_is_literal : Bool) : CompData :=
  let comp := if value_is_literal then comparator
              else replacePrefixCmp b.column_prefix_map comparator
  get_comparator_data b.value comp value_is_literal

/-- Rank used to order cells of distinct kinds (pandas raises on mixed
comparisons; any total order on mixed cells is an admissible model, with
`null` last as pandas sorts `NaN` last). -/
def cellRank : Cell → Nat
  | .boolC _ => 0
  | .int _ => 1
  | .str _ => 2
  | .null => 3

/-- A total order on cells: same-kind cells compare by their value,
cells of distinct kinds by rank. -/
def cellLe (a b : Cell) : Bool :=
  match a, b with
  | .int x, .int y => decide (x ≤ y)
  | .str x, .str y => decide (x ≤ y)
  | .boolC x, .boolC y => decide (x ≤ y)
  | _, _ => decide (cellRank a ≤ cellRank b)

/-- `cellLe` as a decidable relation (for `List.insertionSort`). -/
def cellLeR (a b : Cell) : Prop := cellLe a b = true

instance : DecidableRel cellLeR := fun a b => Bool.decEq (cellLe a b) true

instance : IsTrans Cell cellLeR := by
  refine ⟨fun a b c hab hbc => ?_⟩
  unfold cellLeR cellLe at *
  cases a <;> cases b <;> cases c <;>
    simp_all [cellRank] <;>
    first
      | omega
      | exact le_trans hab hbc

instance : IsTotal Cell cellLeR := by
  refine ⟨fun a b => ?_⟩
  unfold cellLeR cellLe
  cases a <;> cases b <;> simp [cellRank] <;>
    first
      | omega
      | exact le_total _ _

/-- `pandas.Series.unique()`: distinct values in first-occurrence order. -/
def uniqueList : List Cell → List Cell
  | [] => []
  | c :: l => c :: (uniqueList l).filter (fun x => !(decide (x = c)))

/-- `df.groupby(column)` restricted to the rows listed in `order` (in
that order): the distinct non-null keys in ascending order (pandas sorts
group keys and drops `NaN` keys), each with the row positions of its
group. -/
def groupBy (keys : List Cell) (order : List Nat) : List (Cell × List Nat) :=
  let ks := (uniqueList (order.map (fun i => keys.getD i Cell.null))).filter
    (fun k => !(decide (k = Cell.null)))
  (List.insertionSort cellLeR ks).map
    (fun k => (k, order.filter (fun i => decide (keys.getD i Cell.null = k))))

/-- `df.sort_values(by=[column])`: the row positions stably sorted by the
column's cells. -/
def sortIdxBy (keys : List Cell) : List Nat :=
  List.insertionSort
    (fun i j => cellLeR (keys.getD i Cell.null) (keys.getD j Cell.null))
    (List.range keys.length)

/-- pandas `Series.eq` on two cells: missing values compare unequal to
everything (including other missing values). -/
def cellEqPd (a b : Cell) : Bool :=
  match a, b with
  | .null, _ => false
  | _, .null => false
  | a, b => decide (a = b)

/-- `cell in ["", None]` / `Series.isin(["", None])` on one cell. -/
def cellIsEmpty (c : Cell) : Bool :=
  decide (c = Cell.str "") || decide (c = Cell.null)

/-- `Series.eq(comparison_data)` for a whole column: a scalar compares
against every row, a column or literal list elementwise.  A list or
column of a different length, and a sub-table, are outside the modelled
scope (`none`): within one bundle all columns share the row count. -/
def seriesEqData (col : List Cell) (cd : CompData) : Option (List Bool) :=
  match cd with
  | .lit (.s s) => some (col.map (fun c => cellEqPd c (.str s)))
  | .lit (.c v) => some (col.map (fun c => cellEqPd c v))
  | .lit (.l cs) =>
    if col.length = cs.length then some (List.zipWith cellEqPd col cs) else none
  | .col cells =>
    if col.length = cells.length then
      some (List.zipWith cellEqPd col cells)
    else none
  | .subdf _ => none

/-- The per-row comparison value a resolved comparator supplies at row
`i`: a scalar for every row, a column or literal list positionally. -/
def compAt (cd : CompData) (i : Nat) : Option Cell :=
  match cd with
  | .lit (.s s) => some (.str s)
  | .lit (.c v) => some v
  | .lit (.l cs) => cs[i]?
  | .col cells => cells[i]?
  | .subdf _ => none

/-- `DataframeType.equal_to`:
`value[target].eq(comparison_data) & ~value[target].isin(["", None])`.
`none` when the target column is missing (pandas `KeyError`) or the
comparison shape is outside the modelled scope. -/
def df_equal_to (b : Bundle) (target : String) (comparator : CmpV)
    (value_is_literal : Bool) : Option (List Bool) := do
  let t := replacePrefix b.column_prefix_map target
  let cd := df_comparison_data b comparator value_is_literal
  let tcol ← b.value.getCol? t
  let eqs ← seriesEqData tcol cd
  pure (List.zipWith (fun e c => e && !(cellIsEmpty c)) eqs tcol)

/-- `DataframeType.not_equal_to`: `~self.equal_to(other_value)`. -/
def df_not_equal_to (b : Bundle) (target : String) (comparator : CmpV)
    (value_is_literal : Bool) : Option (List Bool) :=
  (df_equal_to b target comparator value_is_literal).map
    (fun r => r.map (fun x => !x))

/-- `DataframeType.contains_all`: a list comparator is used as-is, a
non-list comparator is prefix-rewritten and looked up as a column whose
distinct values are taken (`KeyError` when absent, modelled as `none`);
true iff that value set is a subset of the distinct target values. -/
def df_contains_all (b : Bundle) (target : String) (comparator : CmpV) :
    Option Bool := do
  let t := replacePrefix b.column_prefix_map target
  let values ← (match comparator with
    | .l cs => some cs
    | .s name =>
      (b.value.getCol? (replacePrefix b.column_prefix_map name)).map uniqueList
    | .c _ => none : Option (List Cell))
  let tcol ← b.value.getCol? t
  pure (values.all (fun v => decide (v ∈ uniqueList tcol)))

/-- `DataframeType.not_contains_all`: `not self.contains_all(other_value)`. -/
def df_not_contains_all (b : Bundle) (target : String) (comparator : CmpV) :
    Option Bool :=
  (df_contains_all b target comparator).map (fun x => !x)

/-- `DataframeType.is_unique_set`: the grouping key is the comparator
column name(s) with the target appended; rows are grouped by the combined
key and each row reports whether its group has size at most 1.  Rows
whose key contains a missing value are dropped by `groupby` and report
false (`NaN <= 1` is false).  `none` when a key is not a string or a
named column is absent. -/
def df_is_unique_set (b : Bundle) (target : String) (comparator : CmpV) :
    Option (List Bool) := do
  let t := replacePrefix b.column_prefix_map target
  let keyNames ← (match comparator with
    | .l cs => (cs.mapM (fun c =>
        (match c with
        | .str s => some s
        | _ => none : Option String))).map (fun ns => ns ++ [target])
    | .s s => some [s, target]
    | .c _ => none : Option (List String))
  let keyNames2 := keyNames.map (replacePrefix b.column_prefix_map)
  let keyCols ← keyNames2.mapM b.value.getCol?
  let _ ← b.value.getCol? t
  let n := b.value.nRows
  let keyAt : Nat → List Cell := fun i => keyCols.map (fun col => col.getD i Cell.null)
  pure ((List.range n).map (fun i =>
    if (keyAt i).contains Cell.null then false
    else decide (((List.range n).filter (fun j => decide (keyAt j = keyAt i))).length ≤ 1)))

/-- `DataframeType.is_not_unique_set`: `~self.is_unique_set(other_value)`. -/
def df_is_not_unique_set (b : Bundle) (target : String) (comparator : CmpV) :
    Option (List Bool) :=
  (df_is_unique_set b target comparator).map (fun r => r.map (fun x => !x))

/-- `DataframeType.compare_target_with_comparator_next_row` on one group:
target values without the last row against comparator values without the
first row, elementwise equality, with `pandas.NA` (here `none`) appended
for the last row. -/
def compareTargetNextRow (tcol ccol : List Cell) (idx : List Nat) :
    List (Option Bool) :=
  (List.zipWith (fun a b => some (decide (a = b)))
    (idx.dropLast.map (fun i => tcol.getD i Cell.null))
    (idx.tail.map (fun i => ccol.getD i Cell.null))) ++ [none]

/-- `DataframeType.has_next_corresponding_record`: sort rows by the
`ordering` column, group by the `within` column, compare each group's
target with the comparator of the next row, and concatenate the group
results (`apply` + `explode` walks the groups in key order).  `none`
when one of the four columns is missing. -/
def df_has_next_corresponding_record (b : Bundle)
    (target comparator within ordering : String) :
    Option (List (Option Bool)) := do
  let pm := b.column_prefix_map
  let tcol ← b.value.getCol? (replacePrefix pm target)
  let ccol ← b.value.getCol? (replacePrefix pm comparator)
  let gcol ← b.value.getCol? (replacePrefix pm within)
  let ocol ← b.value.getCol? (replacePrefix pm ordering)
  let order := sortIdxBy ocol
  pure (((groupBy gcol order).map
    (fun g => compareTargetNextRow tcol ccol g.2)).flatten)

/-- `DataframeType.does_not_have_next_corresponding_record`:
`~self.has_next_corresponding_record(other_value)` — on a nullable
boolean column, negation leaves the `NA` placeholders in place. -/
def df_does_not_have_next_corresponding_record (b : Bundle)
    (target comparator within ordering : String) :
    Option (List (Option Bool)) :=
  (df_has_next_corresponding_record b target comparator within ordering).map
    (fun r => r.map (fun ob => ob.map (fun x => !x)))

/-- Errors raised by dataframe operators: the explicit
`raise Exception(...)` diagnostics (malformed argument shapes) and
pandas `KeyError`s for absent columns. -/
inductive OpError where
  | invalidArgument (msg : String)
  | keyError (key : String)
deriving DecidableEq

/-- The per-group flags behind `is_ordered_set` / `is_not_ordered_set`:
`groupby(comparator).agg(list)[target].map(lambda x: sorted(x) == x)`,
one flag per group. -/
def orderedGroupFlags (kcol tcol : List Cell) : List Bool :=
  (groupBy kcol (List.range kcol.length)).map (fun g =>
    let vals := g.2.map (fun i => tcol.getD i Cell.null)
    decide (List.insertionSort cellLeR vals = vals))

/-- `DataframeType.is_ordered_set`: a list comparator raises
`Exception('Comparator must be a single String value')`; a string
comparator is used as the grouping column (`KeyError` when absent, or
when the target is absent from — or consumed by — the grouping); the
result is `not (False in …)` over the per-group sortedness flags. -/
def df_is_ordered_set (b : Bundle) (target : String) (comparator : CmpV) :
    Except OpError Bool :=
  let t := replacePrefix b.column_prefix_map target
  match comparator with
  | .l _ => .error (.invalidArgument "Comparator must be a single String value")
  | .c _ => .error (.keyError "")
  | .s key =>
    match b.value.getCol? key with
    | none => .error (.keyError key)
    | some kcol =>
      if t = key then .error (.keyError t)
      else
        match b.value.getCol? t with
        | none => .error (.keyError t)
        | some tcol => .ok (!((orderedGroupFlags kcol tcol).contains false))

/-- `DataframeType.is_not_ordered_set`: same shape, returning
`False in …` over the per-group sortedness flags. -/
def df_is_not_ordered_set (b : Bundle) (target : String) (comparator : CmpV) :
    Except OpError Bool :=
  let t := replacePrefix b.column_prefix_map target
  match comparator with
  | .l _ => .error (.invalidArgument "Comparator must be a single String value")
  | .c _ => .error (.keyError "")
  | .s key =>
    match b.value.getCol? key with
    | none => .error (.keyError key)
    | some kcol =>
      if t = key then .error (.keyError t)
      else
        match b.value.getCol? t with
        | none => .error (.keyError t)
        | some tcol => .ok ((orderedGroupFlags kcol tcol).contains false)

/-- `DataframeType.is_ordered_by`:
`value[target].eq(value[target].sort_values(ignore_index=True))` — the
column compared elementwise against its own ascending sort. -/
def df_is_ordered_by (b : Bundle) (target : String) : Option (List Bool) :=
  (b.value.getCol? (replacePrefix b.column_prefix_map target)).map
    (fun col => List.zipWith cellEqPd col (List.insertionSort cellLeR col))

/-- `DataframeType.validate_series_length`: `[True] * len(ser)` when the
group is longer than `min_length`, else `[False] * min_length`. -/
def validate_series_length (ser : List Cell) (min_length : Nat) : List Bool :=
  if ser.length > min_length then List.replicate ser.length true
  else List.replicate min_length false

/-- `DataframeType.present_on_multiple_rows_within`: group by the
`within` column (`min_count := comparator or 1`, so a missing or zero
comparator means 1), validate each group's length, and concatenate the
per-group lists (`apply` + `explode`). -/
def df_present_on_multiple_rows_within (b : Bundle) (target : String)
    (comparator : Option Nat) (within : String) : Option (List Bool) := do
  let t := replacePrefix b.column_prefix_map target
  let min_count : Nat := match comparator with
    | some n => if n = 0 then 1 else n
    | none => 1
  let gcol ← b.value.getCol? (replacePrefix b.column_prefix_map within)
  let tcol ← b.value.getCol? t
  pure (((groupBy gcol (List.range gcol.length)).map
    (fun g => validate_series_length
      (g.2.map (fun i => tcol.getD i Cell.null)) min_count)).flatten)

/-- `DataframeType.not_present_on_multiple_rows_within`:
`~self.present_on_multiple_rows_within(other_value)`. -/
def df_not_present_on_multiple_rows_within (b : Bundle) (target : String)
    (comparator : Option Nat) (within : String) : Option (List Bool) :=
  (df_present_on_multiple_rows_within b target comparator within).map
    (fun r => r.map (fun x => !x))

/-- The greatest row position carrying the given key (the group's last
row, for the index alignment of `empty_within_except_last_row`). -/
def lastIndexWithKey (keys : List Cell) (k : Cell) : Option Nat :=
  ((List.range keys.length).filter
    (fun i => decide (keys.getD i Cell.null = k))).getLast?

/-- `DataframeType.empty_within_except_last_row`: group the target by the
comparator column, flag `x in ["", None]` on every group row except the
last, return whether any such flag is true, and write the per-row flags
back into the table under a fresh result column name (rows not covered —
each group's last row and rows with a missing group key — receive `NaN`).
The fresh name stands for `result_{uuid4()}`. -/
def df_empty_within_except_last_row (b : Bundle) (target comparator : String)
    (fresh : String) : Option (Bool × DataFrame) := do
  let t := replacePrefix b.column_prefix_map target
  let kcol ← b.value.getCol? comparator
  let tcol ← b.value.getCol? t
  let groups := groupBy kcol (List.range kcol.length)
  let flags := (groups.map
    (fun g => g.2.dropLast.map (fun i => cellIsEmpty (tcol.getD i Cell.null)))).flatten
  let newCol := (List.range b.value.nRows).map (fun i =>
    let k := kcol.getD i Cell.null
    if k = Cell.null then Cell.null
    else if lastIndexWithKey kcol k = some i then Cell.null
    else Cell.boolC (cellIsEmpty (tcol.getD i Cell.null)))
  pure (flags.contains true, ⟨b.value.cols ++ [(fresh, newCol)]⟩)

/-- `SelectType._case_insensitive_equal_to`: string-vs-string comparison
is case-insensitive, any other comparison exact. -/
def gs_ci_equal (a b : GScalar) : Bool :=
  match a, b with
  | .s x, .s y => decide (x.toLower = y.toLower)
  | a, b => decide (a = b)

/-- `SelectType.contains`: some element of the collection equals the
value (case-insensitively for strings). -/
def select_contains (container : List GScalar) (x : GScalar) : Bool :=
  container.any (fun v => gs_ci_equal v x)

/-- `SelectMultipleType.contains_all`: every element of `items` is
contained (via `SelectType.contains`) in `container`. -/
def selectm_contains_all (container items : List GScalar) : Bool :=
  items.all (fun x => select_contains container x)

/-- `GenericType.is_contained_by`: a non-list stored value is first
replaced by the one-element list around it
(`self.value = [self.value]`), then `SelectMultipleType(other)` must
contain all of the stored elements.  The pair returned is (result, the
stored value after the call). -/
def generic_is_contained_by (v : GVal) (other : List GScalar) :
    Bool × GVal :=
  let stored := match v with
    | .list _ => v
    | .sc x => GVal.list [x]
  let selfList := match stored with
    | .list l => l
    | .sc x => [x]
  (selectm_contains_all other selfList, stored)

instance {ε α : Type} [DecidableEq ε] [DecidableEq α] :
    DecidableEq (Except ε α) := fun a b =>
  match a, b with
  | .ok x, .ok y => decidable_of_iff (x = y) (by simp)
  | .error x, .error y => decidable_of_iff (x = y) (by simp)
  | .ok _, .error _ => isFalse (by simp)
  | .error _, .ok _ => isFalse (by simp)

/-- The behaviour §4.5 ascribes to `has_next_corresponding_record` on one
group, stated from the spec's words: within the group, position `i`
reports whether row `i`'s target equals row `i + 1`'s comparator, and
the group's last position is the `NA` placeholder. -/
def hasNextSpecGroup (tcol ccol : List Cell) (idx : List Nat) :
    List (Option Bool) :=
  (List.range idx.length).map (fun p =>
    if p + 1 < idx.length then
      some (decide (tcol.getD (idx.getD p 0) Cell.null =
        ccol.getD (idx.getD (p + 1) 0) Cell.null))
    else none)

/-- A one-row bundle (`within` column `G = ["X"]`, target `T = ["a"]`)
exercising `present_on_multiple_rows_within` with `comparator = 2`. -/
def exC1 : Bundle := ⟨⟨[("G", [.str "X"]), ("T", [.str "a"])]⟩, []⟩

/-- The S3-style bundle: one `AESEV` column (last cell empty) and the
prefix map `{"--": "AE"}`. -/
def exC3 : Bundle :=
  ⟨⟨[("AESEV", [.str "MILD", .str "SEVERE", .str ""])]⟩, [("--", "AE")]⟩

/-- A bundle for the auxiliary-column behaviour of
`empty_within_except_last_row`: comparator column `k`, target column `t`
whose first cell is empty. -/
def exC5 : Bundle :=
  ⟨⟨[("k", [.int 1, .int 1, .int 2]),
     ("t", [.str "", .str "x", .str "y"])]⟩, []⟩

/-- The one-column table used against C6. -/
def exC6 : DataFrame := ⟨[("A", [.int 1, .int 2])]⟩

/-- The S5-style bundle: one group (`g = X`), ordered by `o`, target
`tv = [20, 10, 30]` and comparator `cv = [10, 99, 20]` (in unsorted row
order; sorted by `o` the target reads `[10, 20, 30]` and the comparator
`[99, 10, 20]`). -/
def exC7 : Bundle :=
  ⟨⟨[("g", [.str "X", .str "X", .str "X"]),
     ("o", [.int 2, .int 1, .int 3]),
     ("tv", [.int 20, .int 10, .int 30]),
     ("cv", [.int 10, .int 99, .int 20])]⟩, []⟩

/-- A bundle with the non-decreasing integer column `v = [1, 2, 3]`. -/
def exC8 : Bundle := ⟨⟨[("v", [.int 1, .int 2, .int 3])]⟩, []⟩

/-- The bundle used against C9: the table has a `T` column but no `G`
column. -/
def exC9 : Bundle := ⟨⟨[("T", [.int 1, .int 2])]⟩, []⟩

end BRules

namespace BRules

/-- C4: NumericType tolerance.  If `|a - b| ≤ EPSILON` then `equal_to` is
true while `greater_than` and `less_than` are both false; `greater_than`
and `less_than` hold exactly when the signed difference strictly exceeds
`EPSILON`; the `_or_equal` variants are the disjunction of the strict
comparison and `equal_to`. -/
theorem C4_numeric_epsilon (a b : Dec) :
    (|a - b| ≤ EPSILON →
      num_equal_to a b = true ∧ num_greater_than a b = false ∧
        num_less_than a b = false)
    ∧ (num_greater_than a b = true ↔ a - b > EPSILON)
    ∧ (num_less_than a b = true ↔ b - a > EPSILON)
    ∧ num_greater_than_or_equal_to a b =
        (num_greater_than a b || num_equal_to a b)
    ∧ num_less_than_or_equal_to a b =
        (num_less_than a b || num_equal_to a b) := by
  refine ⟨?_, ?_, ?_, rfl, rfl⟩
  · intro h
    rcases abs_le.mp h with ⟨h1, h2⟩
    refine ⟨?_, ?_, ?_⟩
    · simp [num_equal_to, h]
    · simp only [num_greater_than, decide_eq_false_iff_not, not_lt]
      exact h2
    · simp only [num_less_than, decide_eq_false_iff_not, not_lt]
      linarith
  · simp [num_greater_than]
  · simp [num_less_than]

/-- Witness for C4 at the concrete input `a = b = 1`. -/
theorem C4_numeric_epsilon_witness :
    num_equal_to 1 1 = true ∧ num_greater_than 1 1 = false ∧
      num_less_than 1 1 = false :=
  (C4_numeric_epsilon 1 1).1 (by norm_num [EPSILON])

/-- C10: StringType coercion maps every falsy input (None, False, 0, the
empty string, empty collections) to `""`; a string input is returned
unchanged; the coercion fails exactly on truthy non-string inputs.  In
particular `StringType(0)` and `StringType(False)` are accepted as `""`. -/
theorem C10_stringtype_falsy :
    (∀ v : GVal,
      (gval_falsy v = true → stringtype_cast v = .ok "")
      ∧ (∀ s, v = GVal.sc (.s s) → stringtype_cast v = .ok s)
      ∧ ((∃ e, stringtype_cast v = .error e) ↔
          (gval_falsy v = false ∧ ∀ s, v ≠ GVal.sc (.s s))))
    ∧ stringtype_cast (GVal.sc (.q 0)) = .ok ""
    ∧ stringtype_cast (GVal.sc (.b false)) = .ok "" := by
  refine ⟨fun v => ⟨?_, ?_, ?_⟩, rfl, rfl⟩
  · intro h
    simp [stringtype_cast, h]
  · rintro s rfl
    by_cases h : gval_falsy (GVal.sc (.s s)) = true
    · have hs : s = "" := by
        simpa [gval_falsy] using h
      simp [stringtype_cast, h, hs]
    · simp [stringtype_cast, h]
  · constructor
    · rintro ⟨e, he⟩
      by_cases h : gval_falsy v = true
      · simp [stringtype_cast, h] at he
      · refine ⟨by simpa using h, ?_⟩
        rintro s rfl
        simp [stringtype_cast, h] at he
    · rintro ⟨h1, h2⟩
      cases v with
      | sc w =>
        cases w with
        | s s => exact absurd rfl (h2 s)
        | q x =>
          exact ⟨"is not a valid string type.", by simp [stringtype_cast, h1]⟩
        | b x =>
          exact ⟨"is not a valid string type.", by simp [stringtype_cast, h1]⟩
        | none_ => simp [gval_falsy] at h1
      | list l =>
        exact ⟨"is not a valid string type.", by simp [stringtype_cast, h1]⟩

/-- Witness for C10 at the concrete input `[]` (an empty collection). -/
theorem C10_stringtype_falsy_witness :
    stringtype_cast (GVal.list []) = .ok "" :=
  (C10_stringtype_falsy.1 (GVal.list [])).1 (by decide)

/-- C1 (failing evaluation): on a one-row table,
`present_on_multiple_rows_within` with `comparator = 2` returns the
two-element column `[False, False]` — `validate_series_length` pads a
too-small group to `min_length` instead of to the group's length, so the
per-row output is longer than the table. -/
theorem C1_present_on_multiple_rows_length_bug :
    df_present_on_multiple_rows_within exC1 "T" (some 2) "G" =
      some [false, false]
    ∧ exC1.value.nRows = 1 := by
  constructor <;> rfl

/-- C5 (counterexample): `GenericType.is_contained_by` does not leave the
stored value as constructed — constructed with the scalar `"A"`, the
stored value after the call is the list `["A"]`. -/
theorem C5_generic_mutation_counterexample :
    (generic_is_contained_by (GVal.sc (.s "A")) []).2 ≠ GVal.sc (.s "A") := by
  decide

/-- C6 (counterexample): with `value_is_literal = false`, a list
comparator whose elements all name existing columns is NOT returned as
the literal list — `self.value.get` resolves it to the sub-table of
those columns. -/
theorem C6_list_comparator_counterexample :
    get_comparator_data exC6 (.l [.str "A"]) false =
      CompData.subdf ⟨[("A", [.int 1, .int 2])]⟩
    ∧ get_comparator_data exC6 (.l [.str "A"]) false ≠
        CompData.lit (.l [.str "A"]) := by
  constructor
  · rfl
  · decide

/-- C6 (amended): `get_comparator_data` returns the comparator itself
when `value_is_literal` is true; with `value_is_literal` false, a list
comparator is returned as the literal list exactly when it does not
resolve to a sub-table (some element is not the name of an existing
column); when every element names an existing column it returns the
sub-table of those columns, i.e. column data. -/
theorem C6_get_comparator_data_amended (df : DataFrame) (c : CmpV) :
    (get_comparator_data df c true = .lit c)
    ∧ (∀ cs, c = CmpV.l cs → df.selectCols? cs = none →
        get_comparator_data df c false = .lit c)
    ∧ (∀ cs sub, c = CmpV.l cs → df.selectCols? cs = some sub →
        get_comparator_data df c false = .subdf sub) := by
  refine ⟨rfl, ?_, ?_⟩
  · rintro cs rfl h
    simp [get_comparator_data, h]
  · rintro cs sub rfl h
    simp [get_comparator_data, h]

/-- Witness for C6 (amended) at concrete inputs: a list naming the
existing column `A` resolves to the sub-table, and a list naming the
absent column `B` falls back to the literal list. -/
theorem C6_get_comparator_data_amended_witness :
    get_comparator_data exC6 (.l [.str "A"]) false =
      CompData.subdf ⟨[("A", [.int 1, .int 2])]⟩
    ∧ get_comparator_data exC6 (.l [.str "B"]) false =
        CompData.lit (.l [.str "B"]) := by
  constructor
  · exact (C6_get_comparator_data_amended exC6 (.l [.str "A"])).2.2
      [.str "A"] ⟨[("A", [.int 1, .int 2])]⟩ rfl (by decide)
  · exact (C6_get_comparator_data_amended exC6 (.l [.str "B"])).2.1
      [.str "B"] rfl (by decide)

/-- C9 (counterexample): `is_ordered_set` with the single-string
comparator `"G"` does not return a result — the grouping column is
absent from the table, so pandas raises `KeyError` (modelled as the
`keyError` outcome), refuting "with a single-string comparator it
returns a result without raising" for every bundle. -/
theorem C9_is_ordered_set_counterexample :
    df_is_ordered_set exC9 "T" (.s "G") =
      .error (.keyError "G") := by
  rfl

/-- C9 (amended): `is_ordered_set` raises the `InvalidArgument`
diagnostic exactly when the comparator is a list; with a single-string
comparator naming an existing column, and a target that names an
existing column distinct from the grouping column, it returns a result
without raising (otherwise the failure is a `KeyError`, not an
`InvalidArgument`). -/
theorem C9_is_ordered_set_amended (b : Bundle) (t : String) (c : CmpV) :
    ((∃ m, df_is_ordered_set b t c = .error (.invalidArgument m)) ↔
      ∃ l, c = CmpV.l l)
    ∧ (∀ key, c = CmpV.s key →
        (b.value.getCol? key).isSome = true →
        (b.value.getCol? (replacePrefix b.column_prefix_map t)).isSome = true →
        replacePrefix b.column_prefix_map t ≠ key →
        ∃ r, df_is_ordered_set b t c = .ok r) := by
  constructor
  · constructor
    · rintro ⟨m, hm⟩
      cases c with
      | l cs => exact ⟨cs, rfl⟩
      | c v => simp [df_is_ordered_set] at hm
      | s key =>
        exfalso
        simp only [df_is_ordered_set] at hm
        split at hm
        · simp at hm
        · split at hm
          · simp at hm
          · split at hm
            · simp at hm
            · simp at hm
    · rintro ⟨l, rfl⟩
      exact ⟨"Comparator must be a single String value", rfl⟩
  · rintro key rfl hk ht hne
    rcases Option.isSome_iff_exists.mp hk with ⟨kcol, hkcol⟩
    rcases Option.isSome_iff_exists.mp ht with ⟨tcol, htcol⟩
    refine ⟨!((orderedGroupFlags kcol tcol).contains false), ?_⟩
    unfold df_is_ordered_set
    simp [hkcol, htcol, hne]

/-- Witness for C9 (amended) at a concrete bundle: grouping by the
existing column `G` with target `T`, `is_ordered_set` returns a result. -/
theorem C9_is_ordered_set_amended_witness :
    ∃ r, df_is_ordered_set
      ⟨⟨[("T", [.int 1, .int 2]), ("G", [.str "a", .str "a"])]⟩, []⟩
      "T" (.s "G") = .ok r :=
  (C9_is_ordered_set_amended
      ⟨⟨[("T", [.int 1, .int 2]), ("G", [.str "a", .str "a"])]⟩, []⟩
      "T" (.s "G")).2 "G" rfl (by decide) (by decide) (by decide)

/-- C2: complementarity of the `X` / `not_X` pairs.  Each `not_X` below
returns the elementwise (or scalar) boolean negation of `X` on the same
arguments; on the nullable-boolean result of
`has_next_corresponding_record` the `NA` placeholders stay `NA`.  The
`is_ordered_set` / `is_not_ordered_set` pair is implemented by two
separate aggregations and is proved complementary extensionally; the
numeric scalar pair `equal_to` / `not_equal_to` is complementary because
`> EPSILON` is the negation of `≤ EPSILON`. -/
theorem C2_complementarity :
    (∀ b t c lit, df_not_equal_to b t c lit =
      (df_equal_to b t c lit).map (fun r => r.map (fun x => !x)))
    ∧ (∀ b t c, df_not_contains_all b t c =
        (df_contains_all b t c).map (fun x => !x))
    ∧ (∀ b t c, df_is_not_unique_set b t c =
        (df_is_unique_set b t c).map (fun r => r.map (fun x => !x)))
    ∧ (∀ b t c w o, df_does_not_have_next_corresponding_record b t c w o =
        (df_has_next_corresponding_record b t c w o).map
          (fun r => r.map (fun ob => ob.map (fun x => !x))))
    ∧ (∀ b t c w, df_not_present_on_multiple_rows_within b t c w =
        (df_present_on_multiple_rows_within b t c w).map
          (fun r => r.map (fun x => !x)))
    ∧ (∀ b t c, df_is_not_ordered_set b t c =
        (df_is_ordered_set b t c).map (fun x => !x))
    ∧ (∀ a b : Dec, num_not_equal_to a b = !(num_equal_to a b)) := by
  refine ⟨fun _ _ _ _ => rfl, fun _ _ _ => rfl, fun _ _ _ => rfl,
    fun _ _ _ _ _ => rfl, fun _ _ _ _ => rfl, ?_, ?_⟩
  · intro b t c
    unfold df_is_not_ordered_set df_is_ordered_set
    cases c with
    | l cs => rfl
    | c v => rfl
    | s key =>
      simp only
      cases hk : b.value.getCol? key with
      | none => rfl
      | some kcol =>
        simp only
        split
        · rfl
        · cases ht : b.value.getCol? (replacePrefix b.column_prefix_map t) with
          | none => rfl
          | some tcol => simp [Except.map]
  · intro a b
    rcases le_or_lt |a - b| EPSILON with h | h
    · simp [num_not_equal_to, num_equal_to, h, not_lt.mpr h]
    · simp [num_not_equal_to, num_equal_to, h, not_le.mpr h]

/-- Appending columns to a table does not change the lookup of a column
that was already present. -/
theorem getCol?_append (df : DataFrame) (extra : List (String × List Cell))
    (name : String) (col : List Cell) (h : df.getCol? name = some col) :
    (DataFrame.mk (df.cols ++ extra)).getCol? name = some col := by
  unfold DataFrame.getCol? at h ⊢
  rw [List.find?_append]
  cases hf : df.cols.find? (fun p => decide (p.1 = name)) with
  | none => rw [hf] at h; simp at h
  | some pr =>
    rw [hf] at h
    simpa using h

/-- C5 (amended): every operator leaves the stored value unchanged,
except `GenericType.is_contained_by`, which replaces a non-list stored
value `v` by the one-element list `[v]` (a list stored value is left
unchanged); and the auxiliary-column writer
`empty_within_except_last_row` leaves every column that existed at entry
unchanged, appending exactly one result column under its fresh name. -/
theorem C5_frame_effects_amended :
    (∀ (v : GVal) (other : List GScalar),
      (∀ l, v = GVal.list l → (generic_is_contained_by v other).2 = v)
      ∧ (∀ x, v = GVal.sc x →
          (generic_is_contained_by v other).2 = GVal.list [x]))
    ∧ (∀ (b : Bundle) (t c fresh : String) (res : Bool) (df2 : DataFrame),
        df_empty_within_except_last_row b t c fresh = some (res, df2) →
        (∀ name col, b.value.getCol? name = some col →
          df2.getCol? name = some col)
        ∧ (fresh ∉ b.value.colNames →
            df2.colNames = b.value.colNames ++ [fresh])) := by
  constructor
  · intro v other
    constructor
    · rintro l rfl
      rfl
    · rintro x rfl
      rfl
  · intro b t c fresh res df2 h
    simp only [df_empty_within_except_last_row] at h
    cases hk : b.value.getCol? c with
    | none => rw [hk] at h; simp at h
    | some kcol =>
      rw [hk] at h
      cases ht : b.value.getCol? (replacePrefix b.column_prefix_map t) with
      | none => rw [ht] at h; simp at h
      | some tcol =>
        rw [ht] at h
        simp only [Option.some_bind, Option.pure_def, Option.some.injEq,
          Prod.mk.injEq] at h
        obtain ⟨-, rfl⟩ := h
        constructor
        · intro name col hcol
          exact getCol?_append b.value _ name col hcol
        · intro _
          simp [DataFrame.colNames]

/-- Witness for C5 (amended) at concrete inputs: a list stored value is
unchanged, a scalar stored value becomes the one-element list around it,
and on `exC5` the columns `k` and `t` are unchanged by
`empty_within_except_last_row` while the fresh result column is
appended. -/
theorem C5_frame_effects_amended_witness :
    (generic_is_contained_by (GVal.list [.s "A"]) []).2 = GVal.list [.s "A"]
    ∧ (generic_is_contained_by (GVal.sc (.s "A")) []).2 = GVal.list [.s "A"]
    ∧ (⟨[("k", [Cell.int 1, .int 1, .int 2]),
         ("t", [Cell.str "", .str "x", .str "y"]),
         ("r1", [Cell.boolC true, .null, .null])]⟩ : DataFrame).getCol? "t" =
        some [Cell.str "", .str "x", .str "y"] := by
  refine ⟨(C5_frame_effects_amended.1 (GVal.list [.s "A"]) []).1 [.s "A"] rfl,
    (C5_frame_effects_amended.1 (GVal.sc (.s "A")) []).2 (.s "A") rfl,
    ?_⟩
  exact (C5_frame_effects_amended.2 exC5 "t" "k" "r1" true
    ⟨[("k", [Cell.int 1, .int 1, .int 2]),
      ("t", [Cell.str "", .str "x", .str "y"]),
      ("r1", [Cell.boolC true, .null, .null])]⟩ (by rfl)).1
    "t" [Cell.str "", .str "x", .str "y"] (by rfl)

/-- pandas cell equality holds exactly on equal non-missing cells. -/
theorem cellEqPd_true_iff (a b : Cell) :
    cellEqPd a b = true ↔ a = b ∧ a ≠ Cell.null := by
  cases a <;> cases b <;> simp [cellEqPd]

/-- A column is elementwise `Series.eq`-equal to a second column of the
same length exactly when the two are equal and the first has no missing
cell. -/
theorem zipWith_cellEqPd_all_iff (l : List Cell) :
    ∀ s : List Cell, l.length = s.length →
      (((List.zipWith cellEqPd l s).all id) = true ↔
        (l = s ∧ Cell.null ∉ l)) := by
  induction l with
  | nil =>
    intro s hlen
    cases s with
    | nil => simp
    | cons b s' => simp at hlen
  | cons a l ih =>
    intro s hlen
    cases s with
    | nil => simp at hlen
    | cons b s' =>
      have hlen' : l.length = s'.length := by simpa using hlen
      simp only [List.zipWith_cons_cons, List.all_cons, Bool.and_eq_true, id_eq]
      rw [cellEqPd_true_iff, ih s' hlen']
      constructor
      · rintro ⟨⟨rfl, hnull⟩, rfl, hnl⟩
        refine ⟨rfl, ?_⟩
        simp only [List.mem_cons, not_or]
        exact ⟨fun hc => hnull hc.symm, hnl⟩
      · rintro ⟨he, hn⟩
        rw [List.cons_eq_cons] at he
        obtain ⟨rfl, rfl⟩ := he
        simp only [List.mem_cons, not_or] at hn
        exact ⟨⟨rfl, fun hc => hn.1 hc.symm⟩, rfl, hn.2⟩

/-- C8: for a homogeneous integer column, `is_ordered_by` returns a
per-row column of the same length, and that column is everywhere true
exactly when the target column is non-decreasing (each cell is compared
with the corresponding cell of the column's stable ascending sort, and a
sorted list is fixed by sorting). -/
theorem C8_is_ordered_by_iff (b : Bundle) (t : String) (ints : List Int)
    (ht : b.value.getCol? (replacePrefix b.column_prefix_map t) =
      some (ints.map Cell.int)) :
    ∃ r, df_is_ordered_by b t = some r ∧ r.length = ints.length ∧
      (r.all id = true ↔ List.Sorted (· ≤ ·) ints) := by
  have hperm := List.perm_insertionSort cellLeR (ints.map Cell.int)
  have hlen : (ints.map Cell.int).length =
      (List.insertionSort cellLeR (ints.map Cell.int)).length :=
    hperm.length_eq.symm
  have hsortiff : List.Sorted cellLeR (ints.map Cell.int) ↔
      List.Sorted (· ≤ ·) ints := by
    unfold List.Sorted
    rw [List.pairwise_map]
    exact List.Pairwise.iff (fun a b => by simp [cellLeR, cellLe])
  refine ⟨List.zipWith cellEqPd (ints.map Cell.int)
      (List.insertionSort cellLeR (ints.map Cell.int)), ?_, ?_, ?_⟩
  · simp [df_is_ordered_by, ht]
  · rw [List.length_zipWith, ← hlen]
    simp
  · rw [zipWith_cellEqPd_all_iff _ _ hlen]
    constructor
    · rintro ⟨heq, -⟩
      have hs := List.sorted_insertionSort cellLeR (ints.map Cell.int)
      rw [← heq] at hs
      exact hsortiff.mp hs
    · intro hs
      have hfix : List.insertionSort cellLeR (ints.map Cell.int) =
          ints.map Cell.int :=
        List.Sorted.insertionSort_eq (hsortiff.mpr hs)
      rw [hfix]
      exact ⟨rfl, by simp⟩

/-- Witness for C8 at the concrete column `v = [1, 2, 3]`. -/
theorem C8_is_ordered_by_iff_witness :
    ∃ r, df_is_ordered_by exC8 "v" = some r ∧
      r.length = ([1, 2, 3] : List Int).length ∧
      (r.all id = true ↔ List.Sorted (· ≤ ·) ([1, 2, 3] : List Int)) :=
  C8_is_ordered_by_iff exC8 "v" [1, 2, 3] (by rfl)

/-- `getD` at an in-bounds position of a `zipWith` of equal-length lists. -/
theorem getD_zipWith {α β γ : Type} (f : α → β → γ) (l : List α)
    (m : List β) (i : Nat) (d : γ) (da : α) (db : β) (hi : i < l.length)
    (hlen : l.length = m.length) :
    (List.zipWith f l m).getD i d = f (l.getD i da) (m.getD i db) := by
  induction l generalizing m i with
  | nil => simp at hi
  | cons a l ih =>
    cases m with
    | nil => simp at hlen
    | cons b m' =>
      cases i with
      | zero => simp
      | succ j =>
        have hlen' : l.length = m'.length := by simpa using hlen
        have hj : j < l.length := by simpa using hi
        simpa using ih m' j hj hlen'

/-- `getD` at an in-bounds position of a `map`. -/
theorem getD_map {α β : Type} (f : α → β) (l : List α) (i : Nat) (d : β)
    (da : α) (hi : i < l.length) :
    (l.map f).getD i d = f (l.getD i da) := by
  induction l generalizing i with
  | nil => simp at hi
  | cons a l ih =>
    cases i with
    | zero => simp
    | succ j =>
      have hj : j < l.length := by simpa using hi
      simpa using ih j hj

/-- When `Series.eq` accepts the comparison data, the result has the
target's length and each entry compares the target cell with the
comparison value `compAt` supplies at that row. -/
theorem seriesEqData_spec (tcol : List Cell) (cd : CompData)
    (eqs : List Bool) (h : seriesEqData tcol cd = some eqs) :
    eqs.length = tcol.length ∧
    ∀ i, i < tcol.length → ∀ v, compAt cd i = some v →
      eqs.getD i false = cellEqPd (tcol.getD i Cell.null) v := by
  cases cd with
  | lit w =>
    cases w with
    | s s =>
      simp only [seriesEqData, Option.some.injEq] at h
      subst h
      refine ⟨by simp, fun i hi v hv => ?_⟩
      simp only [compAt, Option.some.injEq] at hv
      subst hv
      exact getD_map _ tcol i false Cell.null hi
    | c w =>
      simp only [seriesEqData, Option.some.injEq] at h
      subst h
      refine ⟨by simp, fun i hi v hv => ?_⟩
      simp only [compAt, Option.some.injEq] at hv
      subst hv
      exact getD_map _ tcol i false Cell.null hi
    | l cs =>
      simp only [seriesEqData] at h
      split at h
      · rename_i hlen
        simp only [Option.some.injEq] at h
        subst h
        refine ⟨by rw [List.length_zipWith, hlen]; simp, fun i hi v hv => ?_⟩
        simp only [compAt] at hv
        have hvd : cs.getD i Cell.null = v := by
          rw [List.getD_eq_getElem?_getD, hv]
          rfl
        rw [getD_zipWith cellEqPd tcol cs i false Cell.null Cell.null hi hlen,
          hvd]
      · simp at h
  | col cells =>
    simp only [seriesEqData] at h
    split at h
    · rename_i hlen
      simp only [Option.some.injEq] at h
      subst h
      refine ⟨by rw [List.length_zipWith, hlen]; simp, fun i hi v hv => ?_⟩
      simp only [compAt] at hv
      have hvd : cells.getD i Cell.null = v := by
        rw [List.getD_eq_getElem?_getD, hv]
        rfl
      rw [getD_zipWith cellEqPd tcol cells i false Cell.null Cell.null hi hlen,
        hvd]
    · simp at h
  | subdf d => simp [seriesEqData] at h

/-- On a non-missing cell, pandas `eq` agrees with plain equality. -/
theorem cellEqPd_of_ne_null (a v : Cell) (ha : a ≠ Cell.null) :
    cellEqPd a v = decide (a = v) := by
  cases a <;> cases v <;> simp_all [cellEqPd]

/-- C3: the dataframe `equal_to` returns one boolean per row; a row whose
target cell is the empty string or missing yields false regardless of
the comparison value (even when that value is itself empty or missing);
every other row yields plain equality between the target cell and the
row's comparison value. -/
theorem C3_df_equal_to_empty_missing (b : Bundle) (t : String) (c : CmpV)
    (lit : Bool) (tcol : List Cell)
    (ht : b.value.getCol? (replacePrefix b.column_prefix_map t) = some tcol)
    (res : List Bool) (hres : df_equal_to b t c lit = some res) :
    res.length = tcol.length ∧
    ∀ i, i < tcol.length →
      (cellIsEmpty (tcol.getD i Cell.null) = true → res.getD i false = false)
      ∧ (∀ v, compAt (df_comparison_data b c lit) i = some v →
          cellIsEmpty (tcol.getD i Cell.null) = false →
          res.getD i false = decide (tcol.getD i Cell.null = v)) := by
  simp only [df_equal_to] at hres
  rw [ht] at hres
  simp only [Option.bind_eq_bind, Option.some_bind] at hres
  cases heqs : seriesEqData tcol (df_comparison_data b c lit) with
  | none => rw [heqs] at hres; simp at hres
  | some eqs =>
    rw [heqs] at hres
    simp only [Option.bind_eq_bind, Option.some_bind, Option.pure_def,
      Option.some.injEq] at hres
    subst hres
    obtain ⟨hlen, hspec⟩ := seriesEqData_spec tcol _ eqs heqs
    constructor
    · rw [List.length_zipWith, hlen]
      simp
    · intro i hi
      have hieq : i < eqs.length := by rw [hlen]; exact hi
      have hres : (List.zipWith (fun e c => e && !(cellIsEmpty c)) eqs
          tcol).getD i false =
          (eqs.getD i false && !(cellIsEmpty (tcol.getD i Cell.null))) :=
        getD_zipWith _ eqs tcol i false false Cell.null hieq hlen
      constructor
      · intro hempty
        rw [hres, hempty]
        simp
      · intro v hv hnempty
        have hne : tcol.getD i Cell.null ≠ Cell.null := by
          intro hc
          rw [hc] at hnempty
          simp [cellIsEmpty] at hnempty
        rw [hres, hnempty, hspec i hi v hv, cellEqPd_of_ne_null _ _ hne]
        simp

/-- Witness for C3 on the S3-style bundle `exC3`: the prefix-rewritten
target `--SEV` compares against the literal `MILD`, giving
`[true, false, false]`, and the empty third row is false. -/
theorem C3_df_equal_to_empty_missing_witness :
    df_equal_to exC3 "--SEV" (.s "MILD") true = some [true, false, false]
    ∧ ([true, false, false] : List Bool).getD 2 false = false := by
  refine ⟨by rfl, ?_⟩
  exact ((C3_df_equal_to_empty_missing exC3 "--SEV" (.s "MILD") true
    [.str "MILD", .str "SEVERE", .str ""] (by rfl)
    [true, false, false] (by rfl)).2 2 (by decide)).1 (by rfl)

/-- Membership in `uniqueList` implies membership in the original list. -/
theorem mem_uniqueList {x : Cell} :
    ∀ {l : List Cell}, x ∈ uniqueList l → x ∈ l := by
  intro l
  induction l with
  | nil => simp [uniqueList]
  | cons c l ih =>
    intro hx
    simp only [uniqueList, List.mem_cons] at hx
    rcases hx with rfl | hx
    · exact List.mem_cons_self _ _
    · exact List.mem_cons_of_mem _ (ih (List.mem_of_mem_filter hx))

/-- Every group produced by `groupBy` is nonempty: its key comes from
some listed row, and that row passes the group's filter. -/
theorem groupBy_ne_nil (keys : List Cell) (order : List Nat) :
    ∀ g ∈ groupBy keys order, g.2 ≠ [] := by
  intro g hg
  simp only [groupBy, List.mem_map] at hg
  obtain ⟨k, hk, rfl⟩ := hg
  have hk2 : k ∈ (uniqueList (order.map
      (fun i => keys.getD i Cell.null))).filter
      (fun k => !(decide (k = Cell.null))) :=
    (List.perm_insertionSort cellLeR _).mem_iff.mp hk
  have hk3 := mem_uniqueList (List.mem_of_mem_filter hk2)
  simp only [List.mem_map] at hk3
  obtain ⟨i, hi, hik⟩ := hk3
  intro hnil
  have hmem : i ∈ order.filter (fun i => decide (keys.getD i Cell.null = k)) :=
    List.mem_filter.mpr ⟨hi, by rw [hik]; simp⟩
  have hnil2 :
      order.filter (fun i => decide (keys.getD i Cell.null = k)) = [] := hnil
  rw [hnil2] at hmem
  simp at hmem

/-- On a nonempty group, the code's shifted comparison (drop the last
target row, drop the first comparator row, compare, append `NA`) is
exactly the spec's description: position `i` compares row `i`'s target
with row `i + 1`'s comparator and the last position is `NA`. -/
theorem compareTargetNextRow_spec (tcol ccol : List Cell) :
    ∀ idx : List Nat, idx ≠ [] →
      compareTargetNextRow tcol ccol idx = hasNextSpecGroup tcol ccol idx := by
  intro idx
  induction idx with
  | nil => intro h; exact absurd rfl h
  | cons a rest ih =>
    intro _
    cases rest with
    | nil => rfl
    | cons b rest2 =>
      have ihx := ih (by simp)
      simp only [compareTargetNextRow, hasNextSpecGroup] at ihx ⊢
      have hd : (a :: b :: rest2).dropLast = a :: (b :: rest2).dropLast := rfl
      have htl : (a :: b :: rest2).tail = b :: rest2 := rfl
      rw [hd, htl, List.map_cons]
      have htl2 : (b :: rest2).tail = rest2 := rfl
      rw [htl2] at ihx
      have hmc : (b :: rest2).map (fun i => ccol.getD i Cell.null) =
          ccol.getD b Cell.null :: rest2.map (fun i => ccol.getD i Cell.null) :=
        List.map_cons _ _ _
      rw [hmc, List.zipWith_cons_cons, List.cons_append, ihx]
      have hlen : (a :: b :: rest2).length = (b :: rest2).length + 1 := rfl
      rw [hlen, List.range_succ_eq_map, List.map_cons, List.map_map]
      congr 1
      · simp only [List.getD_cons_zero, List.getD_cons_succ]
        rw [if_pos (by simp)]
      · apply List.map_congr_left
        intro p hp
        simp only [Function.comp_apply, Nat.succ_eq_add_one,
          List.getD_cons_succ]
        by_cases hcond : p + 1 < (b :: rest2).length
        · rw [if_pos hcond,
            if_pos (show p + 1 + 1 < (b :: rest2).length + 1 by omega)]
        · rw [if_neg hcond,
            if_neg (show ¬(p + 1 + 1 < (b :: rest2).length + 1) by omega)]

/-- C7: `has_next_corresponding_record` sorts the rows by the `ordering`
column, groups them by the `within` column, and the returned column is
the concatenation, group by group, of the spec's per-group description:
position `i` is true iff row `i`'s target equals row `i + 1`'s
comparator, and each group's last row yields the null (`NA`)
placeholder. -/
theorem C7_has_next_corresponding_record_spec (b : Bundle)
    (t c w o : String) (tcol ccol gcol ocol : List Cell)
    (ht : b.value.getCol? (replacePrefix b.column_prefix_map t) = some tcol)
    (hc : b.value.getCol? (replacePrefix b.column_prefix_map c) = some ccol)
    (hw : b.value.getCol? (replacePrefix b.column_prefix_map w) = some gcol)
    (ho : b.value.getCol? (replacePrefix b.column_prefix_map o) = some ocol) :
    df_has_next_corresponding_record b t c w o =
      some (((groupBy gcol (sortIdxBy ocol)).map
        (fun g => hasNextSpecGroup tcol ccol g.2)).flatten) := by
  simp only [df_has_next_corresponding_record]
  rw [ht]
  simp only [Option.bind_eq_bind, Option.some_bind]
  rw [hc]
  simp only [Option.some_bind]
  rw [hw]
  simp only [Option.some_bind]
  rw [ho]
  simp only [Option.some_bind, Option.pure_def, Option.some.injEq]
  congr 1
  apply List.map_congr_left
  intro g hg
  exact compareTargetNextRow_spec tcol ccol g.2
    (groupBy_ne_nil gcol (sortIdxBy ocol) g hg)

/-- Witness for C7 on the S5-style bundle `exC7`: the spec-side
description evaluates to `[some true, some true, none]`, i.e. rows 1 and
2 (in sorted order) match the next row's comparator, and the last row of
the single group is the `NA` placeholder. -/
theorem C7_has_next_corresponding_record_spec_witness :
    df_has_next_corresponding_record exC7 "tv" "cv" "g" "o" =
      some [some true, some true, none] :=
  (C7_has_next_corresponding_record_spec exC7 "tv" "cv" "g" "o"
    [.int 20, .int 10, .int 30] [.int 10, .int 99, .int 20]
    [.str "X", .str "X", .str "X"] [.int 2, .int 1, .int 3]
    (by rfl) (by rfl) (by rfl) (by rfl)).trans (by rfl)

end BRules
